import Mathlib

/-!
Verification of the `robotframework-iperf3` library
(`src/robotframework_iperf3/iperf3.py`): a shallow embedding of the
`Iperf3` keyword facade — boolean coercion, the int-to-float output
normalization, command-line construction, server start/stop and the
client run — together with models of the Python standard-library
functions the code calls (`json.loads`, `shlex.split`, `re.split` on
the fixed pattern, `str.lower`).

External processes are modelled by the data the code observes about
them: the exit code and the captured stdout/stderr bytes.  Spawning is
made observable by returning the list of command lines handed to
`subprocess.Popen` during a call.
-/

namespace Iperf3Lib

/-- Characters that are awkward to write literally are named via their
code points. -/
def quoteChar : Char := Char.ofNat 34

def squoteChar : Char := Char.ofNat 39

def backslashChar : Char := Char.ofNat 92

def lbraceChar : Char := Char.ofNat 123

def rbraceChar : Char := Char.ofNat 125

/-- A Python value as produced by `json.loads`: the opaque tree of
scalars, sequences and mappings that the library manipulates.  A float
is carried with its exact integer value: the code only ever creates
floats by `float(v)` on an integer `v`, and the claims under study
concern which leaves are converted, not IEEE rounding. -/
inductive JValue : Type where
  | jnull : JValue
  | jbool : Bool → JValue
  | jint : Int → JValue
  | jfloat : Int → JValue
  | jstr : String → JValue
  | jarr : List JValue → JValue
  | jobj : List (String × JValue) → JValue

/-- Python `dict` lookup `d[k]` on the association list representing a
mapping (the JSON model collapses duplicate keys at parse time, as
`json.loads` does, so first match suffices). -/
def dict_get : List (String × JValue) → String → Option JValue
  | [], _ => none
  | kv :: rest, key => if kv.1 = key then some kv.2 else dict_get rest key

/-- Insertion into an object under construction, modelling Python dict
semantics for `json.loads`: a repeated key overwrites the earlier value
in place. -/
def obj_insert : List (String × JValue) → String → JValue → List (String × JValue)
  | [], key, v => [(key, v)]
  | kv :: rest, key, v =>
      if kv.1 = key then (key, v) :: rest else kv :: obj_insert rest key v

mutual

/-- Embedding of `Iperf3._int_to_float` (iperf3.py lines 40–71):
recursively converts every integer in the tree that fails the test
`-(2**31) < value < 2**31` to a float of the same value.  The Python
dict branch dispatches on the value being a dict, a list or a scalar,
and in each case does exactly what the recursive call does, so the
three top-level branches (dict / list / scalar) translate to a mutual
structural recursion. -/
def int_to_float : JValue → JValue
  | .jobj kvs => .jobj (int_to_float_pairs kvs)
  | .jarr xs => .jarr (int_to_float_list xs)
  | .jint n => if ¬(-(2 ^ 31) < n ∧ n < 2 ^ 31) then .jfloat n else .jint n
  | v => v

/-- The per-element recursion of the list branches of `_int_to_float`
(iperf3.py lines 53–55 and 62–64). -/
def int_to_float_list : List JValue → List JValue
  | [] => []
  | x :: xs => int_to_float x :: int_to_float_list xs

/-- The per-value recursion of the dict branch of `_int_to_float`
(iperf3.py lines 46–60). -/
def int_to_float_pairs : List (String × JValue) → List (String × JValue)
  | [] => []
  | (k, v) :: rest => (k, int_to_float v) :: int_to_float_pairs rest

end

/-- A bool-like keyword argument: Robot Framework hands the library
either a native boolean or a string. -/
inductive PyVal : Type where
  | pybool : Bool → PyVal
  | pystr : String → PyVal
  deriving DecidableEq

/-- Python `str(val)` on a bool-like value. -/
def py_str_of : PyVal → String
  | .pybool true => "True"
  | .pybool false => "False"
  | .pystr s => s

/-- ASCII lower-casing of one character. -/
def char_lower (c : Char) : Char :=
  if 65 ≤ c.toNat ∧ c.toNat ≤ 90 then Char.ofNat (c.toNat + 32) else c

/-- Model of Python `str.lower` (the inputs of interest are ASCII). -/
def py_lower (s : String) : String := String.mk (s.toList.map char_lower)

/-- Errors a keyword can raise. -/
inductive PyError : Type where
  | valueError : String → PyError
  | exception : JValue → PyError

/-- Embedding of `Iperf3._to_bool` (iperf3.py lines 27–38). -/
def to_bool (v : PyVal) : Except PyError Bool :=
  let val := py_lower (py_str_of v)
  if val ≠ "true" ∧ val ≠ "false" then .error (.valueError "value not bool-like")
  else .ok (val = "true")

/-- A path into a `JValue` tree: field selection in a mapping, index
selection in a sequence.  Used to state properties about leaves at
arbitrary nesting depth. -/
inductive JPath : Type where
  | here : JPath
  | field : String → JPath → JPath
  | idx : Nat → JPath → JPath

/-- Follow a path through a tree. -/
def getPath : JValue → JPath → Option JValue
  | v, .here => some v
  | .jobj kvs, .field k p =>
      match dict_get kvs k with
      | some v => getPath v p
      | none => none
  | .jarr xs, .idx i p =>
      match xs[i]? with
      | some v => getPath v p
      | none => none
  | _, _ => none

/-- JSON whitespace as accepted by Python `json.loads`. -/
def is_json_ws (c : Char) : Bool := c = ' ' ∨ c = '\t' ∨ c = '\n' ∨ c = '\r'

/-- Drop leading JSON whitespace. -/
def skip_ws : List Char → List Char
  | [] => []
  | c :: rest => if is_json_ws c then skip_ws rest else c :: rest

/-- Longest leading run of decimal digits. -/
def take_digits : List Char → List Char × List Char
  | [] => ([], [])
  | c :: rest =>
      if c.isDigit then
        let p := take_digits rest
        (c :: p.1, p.2)
      else ([], c :: rest)

/-- Decimal digits to a natural number. -/
def digits_to_nat (acc : Nat) : List Char → Nat
  | [] => acc
  | c :: rest => digits_to_nat (acc * 10 + (c.toNat - 48)) rest

/-- Body of a JSON string after the opening quote, up to the closing
quote.  The model covers escape-free strings, which is all the library
inputs under study contain. -/
def parse_string_chars : List Char → Except String (List Char × List Char)
  | [] => .error "Unterminated string"
  | c :: rest =>
      if c = quoteChar then .ok ([], rest)
      else if c = backslashChar then .error "escape sequences not modelled"
      else
        match parse_string_chars rest with
        | .ok p => .ok (c :: p.1, p.2)
        | .error e => .error e

/-- Reject a number continuing with a fraction or exponent: the model
covers integer literals, which is all the claims exercise. -/
def finish_int (n : Int) : List Char → Except String (JValue × List Char)
  | [] => .ok (.jint n, [])
  | c :: rest =>
      if c = '.' ∨ c = 'e' ∨ c = 'E' then .error "non-integer numbers not modelled"
      else .ok (.jint n, c :: rest)

mutual

/-- Model of the value grammar of Python `json.loads`: objects, arrays,
escape-free strings, integer numbers, `true`, `false`, `null`, with
JSON whitespace.  Returns the parsed value and the unconsumed rest. -/
def parse_value (fuel : Nat) (cs : List Char) : Except String (JValue × List Char) :=
  match fuel with
  | 0 => .error "recursion limit"
  | fuel + 1 =>
    match skip_ws cs with
    | [] => .error "Expecting value"
    | c :: rest =>
      if c = quoteChar then
        match parse_string_chars rest with
        | .ok p => .ok (.jstr (String.mk p.1), p.2)
        | .error e => .error e
      else if c = lbraceChar then
        match skip_ws rest with
        | c2 :: r2 =>
            if c2 = rbraceChar then .ok (.jobj [], r2)
            else parse_members fuel (c2 :: r2) []
        | [] => .error "Expecting property name"
      else if c = '[' then
        match skip_ws rest with
        | c2 :: r2 =>
            if c2 = ']' then .ok (.jarr [], r2)
            else parse_elements fuel (c2 :: r2) []
        | [] => .error "Expecting value"
      else if c = 't' then
        match rest with
        | 'r' :: 'u' :: 'e' :: r => .ok (.jbool true, r)
        | _ => .error "Expecting value"
      else if c = 'f' then
        match rest with
        | 'a' :: 'l' :: 's' :: 'e' :: r => .ok (.jbool false, r)
        | _ => .error "Expecting value"
      else if c = 'n' then
        match rest with
        | 'u' :: 'l' :: 'l' :: r => .ok (.jnull, r)
        | _ => .error "Expecting value"
      else if c = '-' then
        match take_digits rest with
        | ([], _) => .error "Expecting value"
        | (ds, r) => finish_int (-(digits_to_nat 0 ds : Int)) r
      else if c.isDigit then
        match take_digits (c :: rest) with
        | (ds, r) => finish_int (digits_to_nat 0 ds) r
      else .error "Expecting value"

/-- Members of a JSON object after the opening brace (first member
onward), accumulating into a Python-dict-like association list. -/
def parse_members (fuel : Nat) (cs : List Char) (acc : List (String × JValue)) :
    Except String (JValue × List Char) :=
  match fuel with
  | 0 => .error "recursion limit"
  | fuel + 1 =>
    match cs with
    | [] => .error "Expecting property name"
    | c :: rest =>
      if c = quoteChar then
        match parse_string_chars rest with
        | .error e => .error e
        | .ok p =>
          match skip_ws p.2 with
          | ':' :: r2 =>
            match parse_value fuel r2 with
            | .error e => .error e
            | .ok q =>
              let acc2 := obj_insert acc (String.mk p.1) q.1
              match skip_ws q.2 with
              | ',' :: r4 => parse_members fuel (skip_ws r4) acc2
              | c5 :: r5 =>
                  if c5 = rbraceChar then .ok (.jobj acc2, r5)
                  else .error "Expecting delimiter"
              | [] => .error "Expecting delimiter"
          | _ => .error "Expecting colon delimiter"
      else .error "Expecting property name"

/-- Elements of a JSON array after the opening bracket (first element
onward). -/
def parse_elements (fuel : Nat) (cs : List Char) (acc : List JValue) :
    Except String (JValue × List Char) :=
  match fuel with
  | 0 => .error "recursion limit"
  | fuel + 1 =>
    match parse_value fuel cs with
    | .error e => .error e
    | .ok q =>
      match skip_ws q.2 with
      | ',' :: r2 => parse_elements fuel r2 (acc ++ [q.1])
      | ']' :: r2 => .ok (.jarr (acc ++ [q.1]), r2)
      | _ => .error "Expecting delimiter"

end

/-- Model of Python `json.loads` on a string: parse one value and
require only whitespace to follow, as `json.loads` does (anything else
is the `Extra data` error). -/
def json_loads (s : String) : Except String JValue :=
  match parse_value (s.toList.length + 2) s.toList with
  | .ok p => if (skip_ws p.2).isEmpty then .ok p.1 else .error "Extra data"
  | .error e => .error e

/-- Model of `re.split` on the fixed pattern
`(?<=})\n(?={)` (iperf3.py line 113): the accumulator is kept in
reverse; a newline is a delimiter exactly when the previously consumed
character is a closing brace and the next one an opening brace. -/
def split_stats_aux : List Char → List Char → List String
  | acc, [] => [String.mk acc.reverse]
  | acc, c :: rest =>
      if c = '\n' ∧ acc.head? = some rbraceChar ∧ rest.head? = some lbraceChar then
        String.mk acc.reverse :: split_stats_aux [] rest
      else split_stats_aux (c :: acc) rest

/-- Split the captured server stdout into JSON documents. -/
def split_stats (s : String) : List String := split_stats_aux [] s.toList

/-- The list comprehension `[json.loads(js) for js in ...]`
(iperf3.py line 113): documents are parsed left to right and the first
parse failure aborts the whole comprehension. -/
def parse_stats_docs : List String → Except String (List JValue)
  | [] => .ok []
  | js :: rest =>
      match json_loads js with
      | .error e => .error e
      | .ok v =>
          match parse_stats_docs rest with
          | .ok vs => .ok (v :: vs)
          | .error e => .error e

/-- A spawned server process, modelled by an identity and by the stdout
the library will read from its pipe after killing it. -/
structure Proc : Type where
  pid : Nat
  stdout : String
  deriving DecidableEq

/-- The keyword facade state (`Iperf3.__init__`, iperf3.py lines 21–22):
the single optional server handle. -/
structure Iperf3 : Type where
  server : Option Proc
  deriving DecidableEq

/-- Outcome of `Iperf3.start_server`: the new facade state, plus the
command lines handed to `subprocess.Popen` during the call (spawning
made observable). -/
structure StartResult : Type where
  state : Iperf3
  spawned : List String
  deriving DecidableEq

/-- The command string built by `Iperf3.start_server` (iperf3.py lines
88–94).  `if server_port:` / `if bind_address:` are Python truthiness
tests, false for `None`, `0` and the empty string. -/
def start_server_command (server_port : Option Int) (bind_address : Option String) : String :=
  let command := "iperf3 -s -J"
  let command :=
    match server_port with
    | some p => if p = 0 then command else command ++ " -p " ++ toString p
    | none => command
  match bind_address with
  | some b => if b = "" then command else command ++ " -B " ++ b
  | none => command

/-- Embedding of `Iperf3.start_server` (iperf3.py lines 73–101): builds
the command and unconditionally spawns a new server process, storing
the new handle in `self.server`; the previous value of `self.server` is
never consulted.  `newProc` is the process the operating system hands
back from `Popen`. -/
def start_server (st : Iperf3) (server_port : Option Int) (bind_address : Option String)
    (newProc : Proc) : StartResult :=
  ⟨⟨some newProc⟩, [start_server_command server_port bind_address]⟩

/-- Outcome of `Iperf3.stop_server`: the new facade state, the returned
statistics list, and the diagnostic printed by the
`except Exception` handler, if any. -/
structure StopResult : Type where
  state : Iperf3
  stats : List JValue
  logged : Option String

/-- Embedding of `Iperf3.stop_server` (iperf3.py lines 103–121).  With
no handle, `self.server.kill()` raises `AttributeError`, which is
caught and passed over; any other exception (in particular a JSON parse
failure) is caught and printed, leaving `stats` at its initial `[]`;
the `finally` clause clears the handle unconditionally. -/
def stop_server (st : Iperf3) : StopResult :=
  match st.server with
  | none => ⟨⟨none⟩, [], none⟩
  | some p =>
      match parse_stats_docs (split_stats p.stdout) with
      | .ok stats => ⟨⟨none⟩, stats, none⟩
      | .error e => ⟨⟨none⟩, [], some ("*ERROR* error getting statistics: " ++ e)⟩

/-- The keyword arguments of `Iperf3.run_client` (iperf3.py lines
123–137), with the source's defaults. -/
structure ClientArgs : Type where
  server_address : String
  server_port : Option Int := none
  bind_address : Option String := none
  protocol : String := "tcp"
  duration : Option Int := some 10
  num_streams : Option Int := none
  reverse : PyVal := .pybool false
  bitrate : Option String := none
  num_bytes : Option String := none
  bidir : PyVal := .pybool false
  tos : Option Int := none
  dscp : Option Int := none

/-- The command-building and argument-validation phase of
`Iperf3.run_client` (iperf3.py lines 298–334), everything before the
`subprocess.Popen` call, in source order: the protocol check raises
before `reverse` is coerced, which raises before `bidir` is coerced.
`if server_port:` / `if bind_address:` are truthiness tests; the
remaining optional flags are `is not None` tests. -/
def run_client_command (a : ClientArgs) : Except PyError String :=
  let command := "iperf3 -J -c " ++ a.server_address
  let command :=
    match a.server_port with
    | some p => if p = 0 then command else command ++ " -p " ++ toString p
    | none => command
  let command :=
    match a.bind_address with
    | some b => if b = "" then command else command ++ " -B " ++ b
    | none => command
  if a.protocol ≠ "tcp" ∧ a.protocol ≠ "udp" then
    .error (.valueError ("unsupported protocol: " ++ a.protocol))
  else
    let command := if a.protocol = "udp" then command ++ " -u" else command
    let command :=
      match a.duration with
      | some d => command ++ " --time " ++ toString d
      | none => command
    let command :=
      match a.num_streams with
      | some n => command ++ " --parallel " ++ toString n
      | none => command
    match to_bool a.reverse with
    | .error e => .error e
    | .ok r =>
      let command := if r then command ++ " --reverse" else command
      let command :=
        match a.bitrate with
        | some b => command ++ " -b " ++ b
        | none => command
      let command :=
        match a.num_bytes with
        | some n => command ++ " --bytes " ++ n
        | none => command
      match to_bool a.bidir with
      | .error e => .error e
      | .ok bd =>
        let command := if bd then command ++ " --bidir" else command
        let command :=
          match a.tos with
          | some t => command ++ " --tos " ++ toString t
          | none => command
        let command :=
          match a.dscp with
          | some d => command ++ " --dscp " ++ toString d
          | none => command
        .ok command

/-- What the library observes of the finished client process:
exit code and the captured stdout/stderr. -/
structure ProcResult : Type where
  returncode : Int
  stdout : String
  stderr : String

/-- The error-detail extraction of `run_client` on a failed run
(iperf3.py lines 342–344): `json.loads(stdout)["error"]` succeeds
exactly when stdout parses to a mapping holding an `error` key; any
exception it raises is displaced by the `raise` in the `finally`
clause, which then reports the earlier `reason` (the stderr text). -/
def extract_error (stdout : String) : Option JValue :=
  match json_loads stdout with
  | .ok (.jobj kvs) => dict_get kvs "error"
  | _ => none

/-- Outcome of `Iperf3.run_client`: the returned (or raised) value,
plus the command lines handed to `subprocess.Popen` during the call. -/
structure RunResult : Type where
  result : Except PyError JValue
  spawned : List String

/-- Embedding of `Iperf3.run_client` (iperf3.py lines 123–347):
validate and build the command, spawn, wait; on non-zero exit raise
`Exception` with the extracted JSON `error` value, falling back to the
stderr text; on zero exit return the normalized parse of stdout (a
stdout that fails to parse raises the decode error uncaught). -/
def run_client (a : ClientArgs) (proc : ProcResult) : RunResult :=
  match run_client_command a with
  | .error e => ⟨.error e, []⟩
  | .ok command =>
      if proc.returncode ≠ 0 then
        let reason :=
          match extract_error proc.stdout with
          | some v => v
          | none => .jstr proc.stderr
        ⟨.error (.exception reason), [command]⟩
      else
        match json_loads proc.stdout with
        | .ok v => ⟨.ok (int_to_float v), [command]⟩
        | .error msg => ⟨.error (.exception (.jstr msg)), [command]⟩

/-- States of the POSIX-mode `shlex` tokenizer: outside any quote,
after a backslash, inside single quotes, inside double quotes, after a
backslash inside double quotes. -/
inductive ShState : Type where
  | norm : ShState
  | esc : ShState
  | squote : ShState
  | dquote : ShState
  | dqesc : ShState

/-- The whitespace set of Python `shlex`. -/
def sh_whitespace (c : Char) : Bool := c = ' ' ∨ c = '\t' ∨ c = '\r' ∨ c = '\n'

/-- Model of the Python `shlex.split` state machine in POSIX mode with
`whitespace_split` (the configuration `shlex.split` uses): whitespace
separates tokens, backslash escapes the next character, single quotes
are literal, double quotes allow backslash-escaped `"` and `\`.
The accumulator is `none` while no token is in progress, so quoted
empty tokens are kept.  Unterminated quotes or a trailing escape raise
`ValueError`, as in Python. -/
def shlex_run : ShState → List Char → Option (List Char) → List String →
    Except String (List String)
  | .norm, [], acc, toks =>
      match acc with
      | some t => .ok (toks ++ [String.mk t])
      | none => .ok toks
  | .norm, c :: rest, acc, toks =>
      if sh_whitespace c then
        match acc with
        | some t => shlex_run .norm rest none (toks ++ [String.mk t])
        | none => shlex_run .norm rest none toks
      else if c = backslashChar then shlex_run .esc rest (some (acc.getD [])) toks
      else if c = squoteChar then shlex_run .squote rest (some (acc.getD [])) toks
      else if c = quoteChar then shlex_run .dquote rest (some (acc.getD [])) toks
      else shlex_run .norm rest (some (acc.getD [] ++ [c])) toks
  | .esc, [], _, _ => .error "No escaped character"
  | .esc, c :: rest, acc, toks => shlex_run .norm rest (some (acc.getD [] ++ [c])) toks
  | .squote, [], _, _ => .error "No closing quotation"
  | .squote, c :: rest, acc, toks =>
      if c = squoteChar then shlex_run .norm rest acc toks
      else shlex_run .squote rest (some (acc.getD [] ++ [c])) toks
  | .dquote, [], _, _ => .error "No closing quotation"
  | .dquote, c :: rest, acc, toks =>
      if c = quoteChar then shlex_run .norm rest acc toks
      else if c = backslashChar then shlex_run .dqesc rest acc toks
      else shlex_run .dquote rest (some (acc.getD [] ++ [c])) toks
  | .dqesc, [], _, _ => .error "No escaped character"
  | .dqesc, c :: rest, acc, toks =>
      if c = quoteChar ∨ c = backslashChar then
        shlex_run .dquote rest (some (acc.getD [] ++ [c])) toks
      else shlex_run .dquote rest (some (acc.getD [] ++ [backslashChar, c])) toks

/-- Model of Python `shlex.split`. -/
def shlex_split (s : String) : Except String (List String) :=
  shlex_run .norm s.toList none []

/-- A character the shlex tokenizer copies through unchanged inside a
bare word: not whitespace and not one of the three metacharacters. -/
def shlex_plain (c : Char) : Prop :=
  sh_whitespace c = false ∧ c ≠ backslashChar ∧ c ≠ squoteChar ∧ c ≠ quoteChar

instance : DecidablePred shlex_plain := fun c => by
  unfold shlex_plain; infer_instance

/-- A recognized true/false token in the sense of the boolean coercion:
the stringified value lower-cases to `true` or to `false`. -/
def bool_like (v : PyVal) : Prop :=
  py_lower (py_str_of v) = "true" ∨ py_lower (py_str_of v) = "false"

instance : DecidablePred bool_like := fun v => by
  unfold bool_like; infer_instance

/-! ## Helper lemmas -/

/-- Normalizing a mapping and then looking a key up is looking the key
up and then normalizing what was found. -/
lemma dict_get_int_to_float (kvs : List (String × JValue)) (k : String) :
    dict_get (int_to_float_pairs kvs) k = (dict_get kvs k).map int_to_float := by
  induction kvs with
  | nil => rfl
  | cons kv rest ih =>
      obtain ⟨key, v⟩ := kv
      by_cases h : key = k
      · simp [int_to_float_pairs, dict_get, h]
      · simp [int_to_float_pairs, dict_get, h, ih]

/-- Normalizing a sequence and then indexing is indexing and then
normalizing the element. -/
lemma get?_int_to_float (xs : List JValue) (i : Nat) :
    (int_to_float_list xs)[i]? = (xs[i]?).map int_to_float := by
  induction xs generalizing i with
  | nil => cases i <;> rfl
  | cons x xs ih =>
      cases i with
      | zero => simp [int_to_float_list]
      | succ n => simpa [int_to_float_list] using ih n

/-- The central fact about the normalization pass: an integer leaf at
any path is left in place when `-(2^31) < v < 2^31` holds and is
replaced by the equal-valued float otherwise. -/
lemma getPath_int_to_float (p : JPath) :
    ∀ (t : JValue) (v : Int), getPath t p = some (.jint v) →
      getPath (int_to_float t) p =
        some (if -(2 ^ 31) < v ∧ v < 2 ^ 31 then .jint v else .jfloat v) := by
  induction p with
  | here =>
      intro t v h
      have ht : t = .jint v := by simpa [getPath] using h
      subst ht
      have hval : int_to_float (JValue.jint v) =
          if ¬(-(2 ^ 31) < v ∧ v < 2 ^ 31) then JValue.jfloat v else JValue.jint v := rfl
      by_cases hv : -(2 ^ 31) < v ∧ v < 2 ^ 31
      · rw [hval, if_neg (not_not_intro hv), if_pos hv]; rfl
      · rw [hval, if_pos hv, if_neg hv]; rfl
  | field k p ih =>
      intro t v h
      cases t with
      | jobj kvs =>
          rcases hu : dict_get kvs k with _ | u
          · simp [getPath, hu] at h
          · have hrec : getPath u p = some (.jint v) := by simpa [getPath, hu] using h
            have := ih u v hrec
            simp [int_to_float, getPath, dict_get_int_to_float, hu, this]
      | jnull => simp [getPath] at h
      | jbool b => simp [getPath] at h
      | jint n => simp [getPath] at h
      | jfloat n => simp [getPath] at h
      | jstr s => simp [getPath] at h
      | jarr xs => simp [getPath] at h
  | idx i p ih =>
      intro t v h
      cases t with
      | jarr xs =>
          rcases hu : xs[i]? with _ | u
          · simp [getPath, hu] at h
          · have hrec : getPath u p = some (.jint v) := by simpa [getPath, hu] using h
            have := ih u v hrec
            simp [int_to_float, getPath, get?_int_to_float, hu, this]
      | jnull => simp [getPath] at h
      | jbool b => simp [getPath] at h
      | jint n => simp [getPath] at h
      | jfloat n => simp [getPath] at h
      | jstr s => simp [getPath] at h
      | jobj kvs => simp [getPath] at h

/-- Boolean coercion fails exactly on the values that are not
recognized true/false tokens. -/
lemma to_bool_err_iff (v : PyVal) :
    to_bool v = .error (.valueError "value not bool-like") ↔ ¬ bool_like v := by
  unfold to_bool bool_like
  by_cases h1 : py_lower (py_str_of v) = "true"
  · simp [h1]
  · by_cases h2 : py_lower (py_str_of v) = "false"
    · simp [h1, h2]
    · simp [h1, h2]

/-- Boolean coercion succeeds exactly on recognized true/false
tokens. -/
lemma to_bool_ok_iff (v : PyVal) : (∃ b, to_bool v = .ok b) ↔ bool_like v := by
  unfold to_bool bool_like
  by_cases h1 : py_lower (py_str_of v) = "true"
  · simp [h1]
  · by_cases h2 : py_lower (py_str_of v) = "false"
    · simp [h1, h2]
    · simp [h1, h2]

/-- One step of the shlex machine outside quotes, as an unfolded
equation. -/
lemma shlex_step_norm (c : Char) (cs : List Char) (acc : Option (List Char))
    (toks : List String) :
    shlex_run .norm (c :: cs) acc toks =
      if sh_whitespace c then
        match acc with
        | some t => shlex_run .norm cs none (toks ++ [String.mk t])
        | none => shlex_run .norm cs none toks
      else if c = backslashChar then shlex_run .esc cs (some (acc.getD [])) toks
      else if c = squoteChar then shlex_run .squote cs (some (acc.getD [])) toks
      else if c = quoteChar then shlex_run .dquote cs (some (acc.getD [])) toks
      else shlex_run .norm cs (some (acc.getD [] ++ [c])) toks := rfl

/-- Plain characters are appended to the token in progress one by
one. -/
lemma shlex_word_cont : ∀ (s cs acc : List Char) (toks : List String),
    (∀ c ∈ s, shlex_plain c) →
    shlex_run .norm (s ++ cs) (some acc) toks = shlex_run .norm cs (some (acc ++ s)) toks := by
  intro s
  induction s with
  | nil => intro cs acc toks _; simp
  | cons c s ih =>
      intro cs acc toks h
      obtain ⟨h1, h2, h3, h4⟩ := h c (List.mem_cons_self c s)
      have hs : ∀ x ∈ s, shlex_plain x := fun x hx => h x (List.mem_cons_of_mem c hx)
      rw [List.cons_append, shlex_step_norm]
      rw [if_neg (by simp [h1]), if_neg h2, if_neg h3, if_neg h4]
      simp only [Option.getD_some]
      rw [ih cs (acc ++ [c]) toks hs, List.append_assoc]
      rfl

/-- A maximal plain word starting with no token in progress becomes the
token in progress. -/
lemma shlex_word_start (c : Char) (t cs : List Char) (toks : List String)
    (h : ∀ x ∈ c :: t, shlex_plain x) :
    shlex_run .norm ((c :: t) ++ cs) none toks = shlex_run .norm cs (some (c :: t)) toks := by
  obtain ⟨h1, h2, h3, h4⟩ := h c (List.mem_cons_self c t)
  have hs : ∀ x ∈ t, shlex_plain x := fun x hx => h x (List.mem_cons_of_mem c hx)
  rw [List.cons_append, shlex_step_norm]
  rw [if_neg (by simp [h1]), if_neg h2, if_neg h3, if_neg h4]
  simp only [Option.getD_none, List.nil_append]
  exact shlex_word_cont t cs [c] toks hs

/-- Plain characters running to the end of input are flushed as the
final token. -/
lemma shlex_word_cont_end : ∀ (s acc : List Char) (toks : List String),
    (∀ c ∈ s, shlex_plain c) →
    shlex_run .norm s (some acc) toks = .ok (toks ++ [String.mk (acc ++ s)]) := by
  intro s
  induction s with
  | nil => intro acc toks _; simp only [List.append_nil]; rfl
  | cons c s ih =>
      intro acc toks h
      obtain ⟨h1, h2, h3, h4⟩ := h c (List.mem_cons_self c s)
      have hs : ∀ x ∈ s, shlex_plain x := fun x hx => h x (List.mem_cons_of_mem c hx)
      rw [shlex_step_norm]
      rw [if_neg (by simp [h1]), if_neg h2, if_neg h3, if_neg h4]
      simp only [Option.getD_some]
      rw [ih (acc ++ [c]) toks hs, List.append_assoc]
      rfl

/-- A plain word at the end of input becomes the final token. -/
lemma shlex_word_end (c : Char) (t : List Char) (toks : List String)
    (h : ∀ x ∈ c :: t, shlex_plain x) :
    shlex_run .norm (c :: t) none toks = .ok (toks ++ [String.mk (c :: t)]) := by
  obtain ⟨h1, h2, h3, h4⟩ := h c (List.mem_cons_self c t)
  have hs : ∀ x ∈ t, shlex_plain x := fun x hx => h x (List.mem_cons_of_mem c hx)
  rw [shlex_step_norm]
  rw [if_neg (by simp [h1]), if_neg h2, if_neg h3, if_neg h4]
  simp only [Option.getD_none, List.nil_append]
  exact shlex_word_cont_end t [c] toks hs

lemma str_toList_append (a b : String) : (a ++ b).toList = a.toList ++ b.toList := rfl

lemma str_toList_mk (l : List Char) : (String.mk l).toList = l := rfl

lemma shlex_client_lead (cs : List Char) :
    shlex_run .norm ("iperf3 -J -c ".toList ++ cs) none [] =
      shlex_run .norm cs none ["iperf3", "-J", "-c"] := rfl

lemma shlex_client_mid (cs acc : List Char) (toks : List String) :
    shlex_run .norm (" -B ".toList ++ cs) (some acc) toks =
      shlex_run .norm cs none ((toks ++ [String.mk acc]) ++ ["-B"]) := rfl

lemma shlex_client_tail (acc : List Char) (toks : List String) :
    shlex_run .norm (" --time ".toList ++ "10".toList) (some acc) toks =
      .ok (((toks ++ [String.mk acc]) ++ ["--time"]) ++ ["10"]) := rfl

lemma shlex_server_lead (cs : List Char) :
    shlex_run .norm ("iperf3 -s -J".toList ++ (" -B ".toList ++ cs)) none [] =
      shlex_run .norm cs none ["iperf3", "-s", "-J", "-B"] := rfl

/-- Tokenization of the server command around a plain non-empty
bind address. -/
lemma shlex_server_command_tokens (c : Char) (t : List Char)
    (h : ∀ x ∈ c :: t, shlex_plain x) :
    shlex_split (("iperf3 -s -J" ++ " -B ") ++ String.mk (c :: t)) =
      .ok ["iperf3", "-s", "-J", "-B", String.mk (c :: t)] := by
  show shlex_run .norm (("iperf3 -s -J" ++ " -B ") ++ String.mk (c :: t)).toList none [] = _
  have hl : (("iperf3 -s -J" ++ " -B ") ++ String.mk (c :: t)).toList =
      "iperf3 -s -J".toList ++ (" -B ".toList ++ (c :: t)) := by
    simp [str_toList_append, str_toList_mk, List.append_assoc]
  rw [hl, shlex_server_lead, shlex_word_end c t ["iperf3", "-s", "-J", "-B"] h]
  rfl

/-- Tokenization of the client command around a plain non-empty server
address and bind address, with the default duration rendered. -/
lemma shlex_client_command_tokens (c : Char) (t : List Char) (c2 : Char) (t2 : List Char)
    (h1 : ∀ x ∈ c :: t, shlex_plain x) (h2 : ∀ x ∈ c2 :: t2, shlex_plain x) :
    shlex_split ((((("iperf3 -J -c " ++ String.mk (c :: t)) ++ " -B ") ++ String.mk (c2 :: t2))
        ++ " --time ") ++ toString (10 : Int)) =
      .ok ["iperf3", "-J", "-c", String.mk (c :: t), "-B", String.mk (c2 :: t2),
        "--time", "10"] := by
  show shlex_run .norm ((((("iperf3 -J -c " ++ String.mk (c :: t)) ++ " -B ")
      ++ String.mk (c2 :: t2)) ++ " --time ") ++ toString (10 : Int)).toList none [] = _
  have h10 : (toString (10 : Int)) = "10" := rfl
  have hl : ((((("iperf3 -J -c " ++ String.mk (c :: t)) ++ " -B ") ++ String.mk (c2 :: t2))
      ++ " --time ") ++ toString (10 : Int)).toList =
      "iperf3 -J -c ".toList ++ ((c :: t) ++ (" -B ".toList ++ ((c2 :: t2) ++
        (" --time ".toList ++ "10".toList)))) := by
    simp [str_toList_append, str_toList_mk, h10, List.append_assoc]
  rw [hl, shlex_client_lead,
    shlex_word_start c t (" -B ".toList ++ ((c2 :: t2) ++ (" --time ".toList ++ "10".toList)))
      ["iperf3", "-J", "-c"] h1,
    shlex_client_mid]
  rw [shlex_word_start c2 t2 (" --time ".toList ++ "10".toList)
      ((["iperf3", "-J", "-c"] ++ [String.mk (c :: t)]) ++ ["-B"]) h2,
    shlex_client_tail]
  rfl

/-- After any stop call the handle is cleared, whatever happened. -/
lemma stop_server_clears (st : Iperf3) : (stop_server st).state = ⟨none⟩ := by
  rcases st with ⟨_ | p⟩
  · rfl
  · rcases h : parse_stats_docs (split_stats p.stdout) with e | s <;> simp [stop_server, h]

/-! ## Claims -/

/-- C1: the claim says calling start while a handle exists spawns no
process and retains the handle.  The code (and this evaluation of its
embedding) shows the opposite: with handle 1 tracked, `start_server`
hands a fresh command line to `Popen` and overwrites the tracked handle
with the new process 2, so the claim contradicts the method's own
docstring (`if a there is already a running server the keyword will not
start another one`). -/
theorem C1_start_server_always_spawns :
    (start_server ⟨some ⟨1, "old"⟩⟩ none none ⟨2, "new"⟩).spawned = ["iperf3 -s -J"] ∧
    (start_server ⟨some ⟨1, "old"⟩⟩ none none ⟨2, "new"⟩).state.server = some ⟨2, "new"⟩ ∧
    some (⟨2, "new"⟩ : Proc) ≠ some (⟨1, "old"⟩ : Proc) :=
  ⟨rfl, rfl, by decide⟩

/-- C2 (counterexample): on stdout `not json` the statistics
comprehension raises a parse error, yet `stop_server` returns normally
with an empty list and only a printed diagnostic — the failure does not
propagate to the caller as a fatal error. -/
theorem C2_counterexample_parse_failure_swallowed :
    parse_stats_docs (split_stats "not json") = .error "Expecting value" ∧
    stop_server ⟨some ⟨1, "not json"⟩⟩ =
      ⟨⟨none⟩, [], some "*ERROR* error getting statistics: Expecting value"⟩ :=
  ⟨rfl, rfl⟩

/-- C2 (amended): each document is parsed independently and a parse
failure aborts the comprehension, but `stop_server`'s
`except Exception` handler catches it: the keyword logs a diagnostic,
returns an empty list, and still clears the handle — it does not abort
the keyword invocation. -/
theorem C2_stop_parse_failure_logged :
    (∀ (d : String) (rest : List String) (e : String), json_loads d = .error e →
      parse_stats_docs (d :: rest) = .error e) ∧
    (∀ (st : Iperf3) (p : Proc) (e : String), st.server = some p →
      parse_stats_docs (split_stats p.stdout) = .error e →
      stop_server st = ⟨⟨none⟩, [], some ("*ERROR* error getting statistics: " ++ e)⟩) := by
  constructor
  · intro d rest e h
    simp [parse_stats_docs, h]
  · intro st p e hs hp
    rcases st with ⟨srv⟩
    have hsrv : srv = some p := hs
    subst hsrv
    simp [stop_server, hp]

/-- C2 (witness): the amended theorem applied to the concrete state
whose server stdout is `nope`. -/
theorem C2_witness :
    stop_server ⟨some ⟨1, "nope"⟩⟩ =
      ⟨⟨none⟩, [], some ("*ERROR* error getting statistics: " ++ "Expecting value")⟩ :=
  C2_stop_parse_failure_logged.2 ⟨some ⟨1, "nope"⟩⟩ ⟨1, "nope"⟩ "Expecting value" rfl rfl

/-- C3 (counterexample): the claim places `-2^31` inside the preserved
range, but the code's test `-(2**31) < value < 2**31` is strict on both
sides, so the integer `-2^31` is converted to a float rather than left
unchanged. -/
theorem C3_counterexample_int32_min_converted :
    int_to_float (.jint (-(2 ^ 31))) = .jfloat (-(2 ^ 31)) ∧
    int_to_float (.jint (-(2 ^ 31))) ≠ .jint (-(2 ^ 31)) :=
  ⟨rfl, fun h => nomatch h⟩

/-- C3 (amended): an integer leaf at any path is replaced by its
equal-valued float exactly when it lies outside the open interval
`(-2^31, 2^31)`; in particular `-2^31` itself is converted. -/
theorem C3_conversion_boundary :
    (∀ (t : JValue) (p : JPath) (v : Int), getPath t p = some (.jint v) →
      getPath (int_to_float t) p =
        some (if -(2 ^ 31) < v ∧ v < 2 ^ 31 then .jint v else .jfloat v)) ∧
    int_to_float (.jint (-(2 ^ 31))) = .jfloat (-(2 ^ 31)) :=
  ⟨fun t p v h => getPath_int_to_float p t v h, rfl⟩

/-- C3 (witness): the amended theorem applied at the leaf `-2^31` one
mapping level deep. -/
theorem C3_witness :
    getPath (int_to_float (.jobj [("bytes", .jint (-(2 ^ 31)))])) (.field "bytes" .here) =
      some (.jfloat (-(2 ^ 31))) := by
  have h := C3_conversion_boundary.1 (.jobj [("bytes", .jint (-(2 ^ 31)))])
    (.field "bytes" .here) (-(2 ^ 31)) rfl
  rwa [if_neg (by decide)] at h

/-- C4: integer leaves strictly inside `(-2^31, 2^31)` are unchanged at
every path; leaves outside become the equal-valued float; and the
simulated client run on `{"end": {"sum_sent": {"bytes": 5000000000}}}`
returns that leaf as the float `5000000000.0`. -/
theorem C4_int_to_float_range :
    (∀ (t : JValue) (p : JPath) (v : Int), getPath t p = some (.jint v) →
        -(2 ^ 31) < v → v < 2 ^ 31 → getPath (int_to_float t) p = some (.jint v)) ∧
    (∀ (t : JValue) (p : JPath) (v : Int), getPath t p = some (.jint v) →
        (v ≤ -(2 ^ 31) ∨ 2 ^ 31 ≤ v) → getPath (int_to_float t) p = some (.jfloat v)) ∧
    (run_client ⟨"192.168.1.1", none, none, "tcp", some 10, none, .pybool false, none, none,
        .pybool false, none, none⟩
      ⟨0, "\x7b\"end\": \x7b\"sum_sent\": \x7b\"bytes\": 5000000000\x7d\x7d\x7d", ""⟩).result =
      .ok (.jobj [("end", .jobj [("sum_sent", .jobj [("bytes", .jfloat 5000000000)])])]) := by
  refine ⟨?_, ?_, rfl⟩
  · intro t p v h h1 h2
    have hv := getPath_int_to_float p t v h
    rwa [if_pos ⟨h1, h2⟩] at hv
  · intro t p v h hout
    have hv := getPath_int_to_float p t v h
    have hneg : ¬(-(2 ^ 31) < v ∧ v < 2 ^ 31) := by rcases hout with h1 | h1 <;> omega
    rwa [if_neg hneg] at hv

/-- C4 (witness): both directions of the range law at concrete
leaves. -/
theorem C4_witness :
    getPath (int_to_float (.jarr [.jint 7])) (.idx 0 .here) = some (.jint 7) ∧
    getPath (int_to_float (.jobj [("bytes", .jint 5000000000)])) (.field "bytes" .here) =
      some (.jfloat 5000000000) :=
  ⟨C4_int_to_float_range.1 (.jarr [.jint 7]) (.idx 0 .here) 7 rfl (by decide) (by decide),
   C4_int_to_float_range.2.1 (.jobj [("bytes", .jint 5000000000)]) (.field "bytes" .here)
     5000000000 rfl (by decide)⟩

/-- C7: stopping a server whose captured stdout is two concatenated
JSON objects (each emitted ending at a closing brace, the next starting
on the following line, as the tool emits them) returns exactly the two
parsed mappings in emission order. -/
theorem C7_stop_two_documents :
    stop_server ⟨some ⟨5, "\x7b\"client\": 1\x7d\n\x7b\"client\": 2\x7d"⟩⟩ =
      ⟨⟨none⟩, [.jobj [("client", .jint 1)], .jobj [("client", .jint 2)]], none⟩ := rfl

/-- C10: stopping with no handle returns an empty result and no
diagnostic; every stop clears the handle; hence a second consecutive
stop again returns an empty result with no error. -/
theorem C10_stop_idempotent :
    stop_server ⟨none⟩ = ⟨⟨none⟩, [], none⟩ ∧
    (∀ st : Iperf3, (stop_server st).state = ⟨none⟩) ∧
    (∀ st : Iperf3, stop_server (stop_server st).state = ⟨⟨none⟩, [], none⟩) := by
  refine ⟨rfl, stop_server_clears, fun st => ?_⟩
  rw [stop_server_clears st]
  rfl

/-- C5: on a non-zero exit the client raises a fatal error whose detail
is the JSON `error` value when stdout parses to a mapping with an
`error` key, and the raw stderr text otherwise; in the concrete
scenario with stdout `{"error": "unable to connect to server"}` the
message is exactly that string. -/
theorem C5_run_client_error_detail :
    (∀ (a : ClientArgs) (proc : ProcResult) (cmd : String) (kvs : List (String × JValue))
        (v : JValue),
        run_client_command a = .ok cmd → proc.returncode ≠ 0 →
        json_loads proc.stdout = .ok (.jobj kvs) → dict_get kvs "error" = some v →
        (run_client a proc).result = .error (.exception v)) ∧
    (∀ (a : ClientArgs) (proc : ProcResult) (cmd : String),
        run_client_command a = .ok cmd → proc.returncode ≠ 0 →
        extract_error proc.stdout = none →
        (run_client a proc).result = .error (.exception (.jstr proc.stderr))) ∧
    (run_client ⟨"192.168.1.1", none, none, "tcp", some 10, none, .pybool false, none, none,
        .pybool false, none, none⟩
      ⟨1, "\x7b\"error\": \"unable to connect to server\"\x7d", "raw stderr text"⟩).result =
      .error (.exception (.jstr "unable to connect to server")) := by
  refine ⟨?_, ?_, rfl⟩
  · intro a proc cmd kvs v hcmd hrc hjson hget
    have hex : extract_error proc.stdout = some v := by
      unfold extract_error
      rw [hjson]
      exact hget
    simp [run_client, hcmd, hrc, hex]
  · intro a proc cmd hcmd hrc hex
    simp [run_client, hcmd, hrc, hex]

/-- C5 (witness): the extraction clause applied to a concrete failed
run. -/
theorem C5_witness :
    (run_client ⟨"127.0.0.1", none, none, "tcp", some 10, none, .pybool false, none, none,
        .pybool false, none, none⟩ ⟨2, "\x7b\"error\": \"busy\"\x7d", "se"⟩).result =
      .error (.exception (.jstr "busy")) :=
  C5_run_client_error_detail.1 _ _ "iperf3 -J -c 127.0.0.1 --time 10"
    [("error", .jstr "busy")] (.jstr "busy") rfl (by decide) rfl rfl

/-- C8: boolean coercion accepts the listed true/false spellings and
native booleans, rejects `yes`, and in general succeeds exactly on
strings whose lower-casing is `true` or `false` and fails with the
invalid-argument error on everything else. -/
theorem C8_bool_coercion :
    (to_bool (.pystr "true") = .ok true ∧ to_bool (.pystr "True") = .ok true ∧
     to_bool (.pystr "TRUE") = .ok true ∧ to_bool (.pybool true) = .ok true ∧
     to_bool (.pystr "false") = .ok false ∧ to_bool (.pystr "False") = .ok false ∧
     to_bool (.pystr "FALSE") = .ok false ∧ to_bool (.pybool false) = .ok false ∧
     to_bool (.pystr "yes") = .error (.valueError "value not bool-like")) ∧
    (∀ s : String, py_lower s = "true" → to_bool (.pystr s) = .ok true) ∧
    (∀ s : String, py_lower s = "false" → to_bool (.pystr s) = .ok false) ∧
    (∀ s : String, py_lower s ≠ "true" → py_lower s ≠ "false" →
      to_bool (.pystr s) = .error (.valueError "value not bool-like")) := by
  refine ⟨⟨rfl, rfl, rfl, rfl, rfl, rfl, rfl, rfl, rfl⟩, ?_, ?_, ?_⟩
  · intro s h
    simp [to_bool, py_str_of, h]
  · intro s h
    simp [to_bool, py_str_of, h]
  · intro s h1 h2
    simp [to_bool, py_str_of, h1, h2]

/-- C8 (witness): the general clauses applied to mixed-case and
unrecognized strings. -/
theorem C8_witness :
    to_bool (.pystr "tRuE") = .ok true ∧
    to_bool (.pystr "maybe") = .error (.valueError "value not bool-like") :=
  ⟨C8_bool_coercion.2.1 "tRuE" (by decide),
   C8_bool_coercion.2.2.2 "maybe" (by decide) (by decide)⟩

/-- C9: the command-building phase of the client raises an
invalid-argument error exactly when the protocol is neither `tcp` nor
`udp` or a boolean-like argument is not a recognized true/false token,
and when it raises, no command line reaches `Popen` and the error is
what the keyword reports. -/
theorem C9_argument_validation (a : ClientArgs) :
    ((∃ msg, run_client_command a = .error (.valueError msg)) ↔
      (¬(a.protocol = "tcp" ∨ a.protocol = "udp") ∨ ¬ bool_like a.reverse ∨
        ¬ bool_like a.bidir)) ∧
    (∀ (proc : ProcResult) (e : PyError), run_client_command a = .error e →
      (run_client a proc).spawned = [] ∧ (run_client a proc).result = .error e) := by
  constructor
  · by_cases hp : a.protocol = "tcp" ∨ a.protocol = "udp"
    · have hp2 : ¬(a.protocol ≠ "tcp" ∧ a.protocol ≠ "udp") := by tauto
      by_cases hr : bool_like a.reverse
      · obtain ⟨br, hbr⟩ := (to_bool_ok_iff a.reverse).2 hr
        by_cases hb : bool_like a.bidir
        · obtain ⟨bb, hbb⟩ := (to_bool_ok_iff a.bidir).2 hb
          simp [run_client_command, if_neg hp2, hbr, hbb, hp, hr, hb]
        · have hbb := (to_bool_err_iff a.bidir).2 hb
          simp [run_client_command, if_neg hp2, hbr, hbb, hp, hr, hb]
      · have hbr := (to_bool_err_iff a.reverse).2 hr
        simp [run_client_command, if_neg hp2, hbr, hp, hr]
    · have hp2 : a.protocol ≠ "tcp" ∧ a.protocol ≠ "udp" := by tauto
      simp [run_client_command, if_pos hp2, hp]
  · intro proc e h
    constructor <;> simp [run_client, h]

/-- C9 (witness): the no-spawn clause applied to the protocol `sctp`
with an arbitrary would-be process. -/
theorem C9_witness :
    (run_client ⟨"host", none, none, "sctp", some 10, none, .pybool false, none, none,
        .pybool false, none, none⟩ ⟨0, "", ""⟩).spawned = [] ∧
    (run_client ⟨"host", none, none, "sctp", some 10, none, .pybool false, none, none,
        .pybool false, none, none⟩ ⟨0, "", ""⟩).result =
      .error (.valueError "unsupported protocol: sctp") :=
  (C9_argument_validation _).2 ⟨0, "", ""⟩ (.valueError "unsupported protocol: sctp") rfl

/-- C6 (counterexample): a bind address containing a space is not
handed to the spawned process as a single verbatim token: the shell
lexer splits it, so the claim fails for this malformed value. -/
theorem C6_counterexample_space_in_address :
    start_server_command none (some "a b") = "iperf3 -s -J -B a b" ∧
    shlex_split (start_server_command none (some "a b")) =
      .ok ["iperf3", "-s", "-J", "-B", "a", "b"] ∧
    "a b" ∉ ["iperf3", "-s", "-J", "-B", "a", "b"] :=
  ⟨rfl, rfl, by decide⟩

/-- C6 (amended): for every non-empty address string free of whitespace
and of the shell-quoting metacharacters, no validation or
transformation is performed — the spawned argument vector contains the
string verbatim as a single token right after its flag, both for the
server's bind address and for the client's server address and bind
address. -/
theorem C6_verbatim_tokens (sa addr : String) (hsa : sa ≠ "") (haddr : addr ≠ "")
    (hpsa : ∀ c ∈ sa.toList, shlex_plain c) (hpaddr : ∀ c ∈ addr.toList, shlex_plain c) :
    shlex_split (start_server_command none (some addr)) =
      .ok ["iperf3", "-s", "-J", "-B", addr] ∧
    ∃ cmd, run_client_command ⟨sa, none, some addr, "tcp", some 10, none, .pybool false, none,
        none, .pybool false, none, none⟩ = .ok cmd ∧
      shlex_split cmd = .ok ["iperf3", "-J", "-c", sa, "-B", addr, "--time", "10"] := by
  obtain ⟨da⟩ := sa
  cases da with
  | nil => exact absurd rfl hsa
  | cons c t =>
    obtain ⟨db⟩ := addr
    cases db with
    | nil => exact absurd rfl haddr
    | cons c2 t2 =>
      refine ⟨shlex_server_command_tokens c2 t2 hpaddr, _, rfl, ?_⟩
      exact shlex_client_command_tokens c t c2 t2 hpsa hpaddr

/-- C6 (witness): the amended theorem applied to well-formed IPv4 and
IPv6 literals. -/
theorem C6_witness :
    shlex_split (start_server_command none (some "fe80::1")) =
      .ok ["iperf3", "-s", "-J", "-B", "fe80::1"] ∧
    ∃ cmd, run_client_command ⟨"10.0.0.1", none, some "fe80::1", "tcp", some 10, none,
        .pybool false, none, none, .pybool false, none, none⟩ = .ok cmd ∧
      shlex_split cmd = .ok ["iperf3", "-J", "-c", "10.0.0.1", "-B", "fe80::1", "--time", "10"] :=
  C6_verbatim_tokens "10.0.0.1" "fe80::1" (by decide) (by decide) (by decide) (by decide)

end Iperf3Lib
